import Mathlib

/-!
# system-monitor: the orchestrator of `a3.c`

A shallow embedding of `main` of `src/a3.c`: the supervising process that
forks three workers (memory, CPU, sessions), drives `numSamples` sample
cycles over pipes, collects the results announced on the shared
notification pipe (`incomingDataPipe`, the "doorbell"), renders a frame per
cycle and finally shuts the workers down.

Modelling conventions

* `main` is a pure function of an `Env` (everything the process observes
  from outside: what `parseArguments`, `recordCpuStats`, `printSystemInfo`
  and `getrusage` return and what arrives on the pipes) to a `Run`: the
  list of calls it makes, in program order, and how it ends.
* Pointers to heap strings are `Option String` (`none` is `NULL`);
  `malloc` is taken to succeed and `free` is not traced.
* An array slot that was never written holds `none`.
* The bytes on a pipe are framed the way `main` reads them: one tag per
  `read` of the notification pipe, one result record per `case` of the
  `switch` (its consecutive `read`s form one call in the trace).
* A `read` on a pipe whose writers are alive and which holds no further
  message never completes (`Stuck.blocked`); the trace of such a run is the
  list of the calls completed before.
* Without workers nobody holds the write end of the notification pipe: a
  `read` on it returns 0 bytes at once and leaves `processFunction = 0`, so
  the collection loop repeats forever (`Stuck.spins`) unless 0 is one of the
  result tags, in which case it reads a descriptor that `pipe` never filled
  (`Stuck.badDescriptor`).
* The worker processes themselves (`displayMemory`, `displayCpu`,
  `printUsers`) live in other files; only the parent side of every `fork`
  is modelled.
* Locals that `main` declares without a value (`userInfo`, `processorCount`,
  `coreCount`) start with a value supplied by the environment.
* `thisSample` is a C `int` and `numSamples` a `long`; the stack arrays of
  length `numSamples` bound the sample count far below `2^31`, so cycle
  indices are natural numbers.
-/

namespace SystemMonitor

/-! ## Data model -/

/-- Modelled from the spec: `struct memorySample` is declared in
`parseMemoryStats.h`, which is not part of the sources; the spec describes it as
physical-used, physical-total, virtual-used and virtual-total. -/
structure memorySample where
  physUsed : Nat
  physTotal : Nat
  virtUsed : Nat
  virtTotal : Nat
deriving DecidableEq

/-- Modelled from the spec: `struct cpuDataSample` is declared in
`parseCpuStats.h`, which is not part of the sources; the spec describes it as the
cumulative time-in-state counters user, nice, system, idle, iowait, irq,
softirq, steal. -/
structure cpuDataSample where
  user : Nat
  nice : Nat
  system : Nat
  idle : Nat
  iowait : Nat
  irq : Nat
  softirq : Nat
  steal : Nat
deriving DecidableEq

/-- The message tags used on the pipes. They are macros of headers that are not
part of the sources, so they are parameters of the model. -/
structure Tags where
  MEM_START_FLAG : Int
  CPU_START_FLAG : Int
  USER_START_FLAG : Int
  MEM_DATA_ID : Int
  CPU_DATA_ID : Int
  USER_DATA_ID : Int
deriving DecidableEq

/-- The three `case` labels of the `switch` at line 203 are pairwise different
(a C compiler rejects duplicate labels). -/
def Tags.distinct (T : Tags) : Prop :=
  T.MEM_DATA_ID ≠ T.CPU_DATA_ID ∧ T.MEM_DATA_ID ≠ T.USER_DATA_ID ∧
    T.CPU_DATA_ID ≠ T.USER_DATA_ID

instance (T : Tags) : Decidable T.distinct := by
  unfold Tags.distinct; infer_instance

/-- Row of `writeToChildFds` / `readFromChildFds`:
`MEM_FDS = 0`, `USER_FDS = 1`, `CPU_FDS = 2`. -/
inductive Chan where
  | MEM_FDS
  | USER_FDS
  | CPU_FDS
deriving DecidableEq

/-- The rows in index order, as the loops `for (i = 0; i < 3; i++)` visit them. -/
def Chan.all : List Chan := [.MEM_FDS, .USER_FDS, .CPU_FDS]

/-- The start tag sent to the worker on a given command channel. -/
def Tags.start (T : Tags) : Chan → Int
  | .MEM_FDS => T.MEM_START_FLAG
  | .USER_FDS => T.USER_START_FLAG
  | .CPU_FDS => T.CPU_START_FLAG

/-- The pipes of the process. -/
inductive Pipe where
  | incomingDataPipe
  | writeToChildFds (c : Chan)
  | readFromChildFds (c : Chan)
deriving DecidableEq

/-- End of a pipe: `FD_READ = 0`, `FD_WRITE = 1`. -/
inductive FdEnd where
  | FD_READ
  | FD_WRITE
deriving DecidableEq

/-- What one `write` on a command channel carries. -/
inductive Payload where
  /-- The tag: `int temp = ...; write(fd, &temp, sizeof(int))` -/
  | tag (t : Int)
  /-- The cycle index: `write(fd, &thisSample, sizeof(int))` -/
  | index (i : Nat)
  /-- The float `cpuHistory[thisSample]`; it is 0.0 throughout, written here as 0 -/
  | percent (p : Int)
  /-- The slot `memorySamples[thisSample - 1]` -/
  | memSample (s : Option memorySample)
  /-- The slot `cpuData[thisSample - 1]` -/
  | cpuSample (s : Option cpuDataSample)
deriving DecidableEq

/-- One result of the memory worker: the sample and the formatted row. -/
structure MemResult where
  sample : memorySample
  text : String
deriving DecidableEq

/-- One result of the CPU worker. -/
structure CpuResult where
  processorCount : Int
  coreCount : Int
  sample : cpuDataSample
  average : String
  text : String
deriving DecidableEq

/-- Argument of a `printf`. -/
inductive Arg where
  | int (v : Int)
  | str (s : Option String)
deriving DecidableEq

/-- The calls `main` makes, in the order it makes them. -/
inductive Event where
  | parseArguments
  | recordCpuStats
  | printSystemInfo
  | printDivider
  | getrusage
  | printf (fmt : String) (args : List Arg)
  | sleep (secs : Nat)
  | pipe (p : Pipe)
  | fork (worker : Chan)
  | close (p : Pipe) (e : FdEnd)
  | write (c : Chan) (v : Payload)
  /-- A completed `read(incomingDataPipe[FD_READ], &processFunction, sizeof(int))` -/
  | readDoorbell (processFunction : Int)
  /-- The three reads of `case MEM_DATA_ID` -/
  | readMem (m : MemResult)
  /-- The seven reads of `case CPU_DATA_ID` -/
  | readCpu (m : CpuResult)
  /-- The two reads of `case USER_DATA_ID` -/
  | readUser (s : String)
  | wait
deriving DecidableEq

/-- What is still unread on the three result pipes. -/
structure Feeds where
  mem : List MemResult
  cpu : List CpuResult
  user : List String
deriving DecidableEq

/-- Everything `main` observes from outside. -/
structure Env where
  /-- return value of `parseArguments` -/
  parseRc : Int
  showSystem : Bool
  showUser : Bool
  showGraphics : Bool
  showSequential : Bool
  numSamples : Nat
  sampleDelay : Nat
  /-- return value of `recordCpuStats(&cpuData[0])` -/
  recordRc : Int
  /-- what `recordCpuStats` stores in `cpuData[0]` -/
  baseline : cpuDataSample
  /-- return value of `printSystemInfo` -/
  sysInfoRc : Int
  /-- The field `ru_maxrss` as reported during cycle `k` -/
  maxrss : Nat → Int
  /-- the tags arriving on `incomingDataPipe`, in order -/
  doorbell : List Int
  /-- the messages arriving on the three result pipes -/
  feeds : Feeds
  /-- indeterminate initial value of the local `userInfo` (line 91) -/
  userInfo0 : Option String
  /-- indeterminate initial value of the local `processorCount` (line 97) -/
  processorCount0 : Int
  /-- indeterminate initial value of the local `coreCount` (line 97) -/
  coreCount0 : Int
  /-- what the `i`-th `wait` of the shutdown returns -/
  reaped : Nat → Int

/-- The locals of `main` that the cycles read and write. -/
structure State where
  cpuData : Nat → Option cpuDataSample
  cpuHistory : Nat → Int
  memorySamples : Nat → Option memorySample
  memoryOutput : Nat → Option String
  cpuOutput : Nat → Option String
  userInfo : Option String
  processorCount : Int
  coreCount : Int
  averageCpuUsage : Option String

/-- Array store `a[i] = v`. -/
def setAt {α : Type} (a : Nat → α) (i : Nat) (v : α) : Nat → α :=
  fun j => if j = i then v else a j

/-- Ways in which the process never reaches its next statement. -/
inductive Stuck where
  /-- a `read` waits for a message that never arrives -/
  | blocked
  /-- the collection loop iterates forever on end-of-file -/
  | spins
  /-- a `read` on a descriptor array that was never filled by `pipe` -/
  | badDescriptor
deriving DecidableEq

/-- How a run ends. -/
inductive Outcome where
  | returned (code : Int)
  | stuck (why : Stuck)
deriving DecidableEq

/-! ## The orchestrator -/

/-- Lines 111-123, and likewise 125-137 and 139-151: the parent creates the two pipes of
one worker, forks it and closes the ends it does not use. -/
def spawnWorker (c : Chan) : List Event :=
  [.pipe (.writeToChildFds c), .pipe (.readFromChildFds c), .fork c,
   .close (.writeToChildFds c) .FD_READ, .close (.readFromChildFds c) .FD_WRITE]

/-- The guard of lines 110 and 172. -/
def Env.spawns (env : Env) : Bool := env.showSystem || !env.showUser

/-- Lines 107-154: the notification pipe, then under the guard of line 110 the three
workers, then the parent closes its write end of the notification pipe. -/
def spawn (env : Env) : List Event :=
  [.pipe .incomingDataPipe] ++
  (if env.spawns then
    spawnWorker .MEM_FDS ++ spawnWorker .CPU_FDS ++ spawnWorker .USER_FDS
   else []) ++
  [.close .incomingDataPipe .FD_WRITE]

/-- Lines 79-104: the locals after the baseline has been recorded. -/
def initState (env : Env) : State where
  cpuData := setAt (fun _ => none) 0 (some env.baseline)
  cpuHistory := fun _ => 0
  memorySamples := fun _ => none
  memoryOutput := fun _ => none
  cpuOutput := fun _ => none
  userInfo := env.userInfo0
  processorCount := env.processorCount0
  coreCount := env.coreCount0
  averageCpuUsage := none

/-- Lines 158-168. -/
def resetCycle (st : State) (thisSample : Nat) : State :=
  { st with
    memoryOutput := setAt st.memoryOutput thisSample none
    cpuOutput := setAt st.cpuOutput thisSample none
    userInfo := none
    averageCpuUsage := none }

/-- Lines 172-196. -/
def sendCommands (T : Tags) (env : Env) (st : State) (thisSample : Nat) : List Event :=
  (if env.spawns then
    [.write .MEM_FDS (.tag T.MEM_START_FLAG), .write .MEM_FDS (.index thisSample)] ++
    (if thisSample > 0 then [.write .MEM_FDS (.memSample (st.memorySamples (thisSample - 1)))]
     else []) ++
    [.write .CPU_FDS (.tag T.CPU_START_FLAG), .write .CPU_FDS (.index thisSample)] ++
    (if thisSample > 0 then
      [.write .CPU_FDS (.percent (st.cpuHistory thisSample)),
       .write .CPU_FDS (.cpuSample (st.cpuData (thisSample - 1)))]
     else []) ++
    [.write .USER_FDS (.tag T.USER_START_FLAG)]
   else []) ++
  [.printf "Passed data\n" []]

/-- The condition of the `while` at line 199. -/
def needsMore (st : State) (thisSample : Nat) : Bool :=
  (st.memoryOutput thisSample).isNone || (st.cpuOutput thisSample).isNone ||
    st.userInfo.isNone

/-- The `switch` of lines 203-236 on the tag just read. -/
def dispatch (T : Tags) (thisSample : Nat) (processFunction : Int) (st : State) (f : Feeds) :
    Except Stuck (List Event × State × Feeds) :=
  if processFunction = T.MEM_DATA_ID then
    match f.mem with
    | [] => .error .blocked
    | m :: rest =>
      .ok ([.readMem m],
        { st with
          memorySamples := setAt st.memorySamples thisSample (some m.sample)
          memoryOutput := setAt st.memoryOutput thisSample (some m.text) },
        { f with mem := rest })
  else if processFunction = T.CPU_DATA_ID then
    match f.cpu with
    | [] => .error .blocked
    | m :: rest =>
      .ok ([.readCpu m],
        { st with
          processorCount := m.processorCount
          coreCount := m.coreCount
          cpuData := setAt st.cpuData thisSample (some m.sample)
          averageCpuUsage := some m.average
          cpuOutput := setAt st.cpuOutput thisSample (some m.text) },
        { f with cpu := rest })
  else if processFunction = T.USER_DATA_ID then
    match f.user with
    | [] => .error .blocked
    | s :: rest => .ok ([.readUser s], { st with userInfo := some s }, { f with user := rest })
  else .ok ([], st, f)

/-- Lines 199-237, by recursion on what the notification pipe delivers.
`writers` tells whether some process still holds the write end of the
notification pipe: if so a `read` on the drained pipe blocks, otherwise it
returns 0 bytes and leaves `processFunction = 0`. -/
def collect (T : Tags) (writers : Bool) (thisSample : Nat) :
    List Int → State → Feeds → List Event × Except Stuck (State × Feeds × List Int)
  | [], st, f =>
    if needsMore st thisSample then
      if writers then ([], .error .blocked)
      else if (0 : Int) = T.MEM_DATA_ID ∨ (0 : Int) = T.CPU_DATA_ID ∨ (0 : Int) = T.USER_DATA_ID
        then ([], .error .badDescriptor)
        else ([], .error .spins)
    else ([], .ok (st, f, []))
  | t :: bell, st, f =>
    if needsMore st thisSample then
      match dispatch T thisSample t st f with
      | .error e =>
        ([.readDoorbell t, .printf "Received info of type %d" [.int t]], .error e)
      | .ok (evs, st1, f1) =>
        let r := collect T writers thisSample bell st1 f1
        ([.readDoorbell t, .printf "Received info of type %d" [.int t]] ++ evs ++ r.1, r.2)
    else ([], .ok (st, f, t :: bell))

/-- Lines 269-274: one line per slot of `memoryOutput`. -/
def memoryLines (n : Nat) (st : State) : List Event :=
  (List.range n).map fun i =>
    match st.memoryOutput i with
    | none => .printf "\n" []
    | some s => .printf "%s" [.str (some s)]

/-- Lines 302-307: one line per slot of `cpuOutput`. -/
def cpuLines (n : Nat) (st : State) : List Event :=
  (List.range n).map fun i =>
    match st.cpuOutput i with
    | none => .printf "\n" []
    | some s => .printf "%s" [.str (some s)]

/-- Lines 239-258: up to the divider that precedes the memory section. -/
def frameHead (env : Env) (thisSample : Nat) : List Event :=
  [.printf "Read data\n" []] ++
  (if !env.showSequential then [.printf "\x1b[2J\x1b[3J\x1b[2J\x1b[H\n" []] else []) ++
  [.printf "\n||| Sample #%d |||\n" [.int (thisSample + 1)],
   .printDivider,
   .printf "Nbr of samples: %ld -- every %ld secs\n" [.int env.numSamples, .int env.sampleDelay],
   .getrusage,
   .printf "Memory usage: %ld kilobytes\n" [.int (env.maxrss thisSample)],
   .printDivider]

/-- Lines 260-267. -/
def memoryHeader (env : Env) : Event :=
  if env.showGraphics then
    .printf "### Memory ### (Phys.Used/Tot -- Virtual Used/Tot, Memory Graphic)\n" []
  else .printf "### Memory ### (Phys.Used/Tot -- Virtual Used/Tot)\n" []

/-- Lines 278-291. -/
def frameMiddle (env : Env) (st : State) : List Event :=
  (if env.showUser || !env.showSystem then
    [.printf "### Sessions/users ###\n" [], .printf "%s" [.str st.userInfo], .printDivider]
   else []) ++
  [.printf "Number of processors: %d\n" [.int st.processorCount],
   .printf "Total number of cores: %d\n" [.int st.coreCount],
   .printf "%s" [.str st.averageCpuUsage],
   .printDivider]

/-- Lines 293-300. -/
def cpuHeader (env : Env) : Event :=
  if env.showGraphics then
    .printf "CPU Utilization (%% Use, Relative Abs. Change, %% Use Graphic)\n" []
  else .printf "CPU Utilization (%% Use, Relative Abs. Change)\n" []

/-- Lines 311-316. -/
def frameTail (env : Env) (thisSample : Nat) : List Event :=
  [.printf "||| End of Sample #%d |||\n\n\n" [.int (thisSample + 1)]] ++
  (if thisSample + 1 < env.numSamples then [.sleep env.sampleDelay] else [])

/-- Lines 239-316: the frame of one cycle and the pause after it. -/
def render (env : Env) (st : State) (thisSample : Nat) : List Event :=
  frameHead env thisSample ++ [memoryHeader env] ++ memoryLines env.numSamples st ++
  [.printDivider] ++ frameMiddle env st ++ [cpuHeader env] ++ cpuLines env.numSamples st ++
  [.printDivider] ++ frameTail env thisSample

/-- What one pass through the body of the loop at line 156 did. -/
structure Cycle where
  /-- value of `thisSample` -/
  index : Nat
  /-- lines 170-196 -/
  sent : List Event
  /-- lines 198-237 -/
  collected : List Event
  /-- the locals when the `while` loop was left, if it was -/
  after : Option State
  /-- lines 239-316; empty if the `while` loop was never left -/
  rendered : List Event

/-- The calls of one cycle in program order. -/
def Cycle.events (c : Cycle) : List Event := c.sent ++ c.collected ++ c.rendered

/-- One pass through the body of the loop at line 156. -/
def cycleBody (T : Tags) (env : Env) (thisSample : Nat) (st : State) (f : Feeds)
    (bell : List Int) : Cycle × Except Stuck (State × Feeds × List Int) :=
  let st0 := resetCycle st thisSample
  let r := collect T env.spawns thisSample bell st0 f
  match r.2 with
  | .error e =>
    ({ index := thisSample, sent := sendCommands T env st0 thisSample, collected := r.1,
       after := none, rendered := [] }, .error e)
  | .ok (st1, f1, bell1) =>
    ({ index := thisSample, sent := sendCommands T env st0 thisSample, collected := r.1,
       after := some st1, rendered := render env st1 thisSample }, .ok (st1, f1, bell1))

/-- The loop at line 156: `remaining` more passes starting at `thisSample`. -/
def cycles (T : Tags) (env : Env) :
    Nat → Nat → State → Feeds → List Int → List Cycle × Except Stuck (State × Feeds × List Int)
  | 0, _, st, f, bell => ([], .ok (st, f, bell))
  | remaining + 1, thisSample, st, f, bell =>
    match cycleBody T env thisSample st f bell with
    | (c, .error e) => ([c], .error e)
    | (c, .ok (st1, f1, bell1)) =>
      let r := cycles T env remaining (thisSample + 1) st1 f1 bell1
      (c :: r.1, r.2)

/-- Lines 336-353: sentinel to every command pipe, three `wait`s, closing. -/
def shutdown (env : Env) : List Event :=
  Chan.all.map (fun c => .write c (.tag (-1))) ++
  (List.range 3).flatMap (fun i =>
    [.wait, .printf "Child %d exited\n" [.int (env.reaped i)]]) ++
  Chan.all.flatMap (fun c =>
    [.close (.writeToChildFds c) .FD_READ, .close (.writeToChildFds c) .FD_WRITE,
     .close (.readFromChildFds c) .FD_READ, .close (.readFromChildFds c) .FD_WRITE])

/-- A run of `main`. -/
structure Run where
  /-- lines 66-154 -/
  startup : List Event
  /-- the passes through the loop at line 156 -/
  cycles : List Cycle
  /-- lines 319-353 -/
  finish : List Event
  outcome : Outcome

/-- All calls of a run in program order. -/
def Run.trace (r : Run) : List Event :=
  r.startup ++ r.cycles.flatMap Cycle.events ++ r.finish

/-- The function `main` of `a3.c`. Without workers nobody holds the write end of
the notification pipe, so nothing is ever delivered on it. -/
def main (T : Tags) (env : Env) : Run :=
  if env.parseRc ≠ 0 then
    { startup := [.parseArguments], cycles := [], finish := [], outcome := .returned 1 }
  else if env.recordRc ≠ 0 then
    { startup := [.parseArguments, .printf "\x1b[2J\x1b[3J" [], .printf "\x1b[2J\x1b[H\n" [],
                  .recordCpuStats],
      cycles := [], finish := [], outcome := .returned 1 }
  else
    let startup : List Event :=
      [.parseArguments, .printf "\x1b[2J\x1b[3J" [], .printf "\x1b[2J\x1b[H\n" [],
       .recordCpuStats, .sleep env.sampleDelay] ++ spawn env
    let r := cycles T env env.numSamples 0 (initState env) env.feeds
      (if env.spawns then env.doorbell else [])
    match r.2 with
    | .error e => { startup := startup, cycles := r.1, finish := [], outcome := .stuck e }
    | .ok _ =>
      if env.sysInfoRc ≠ 0 then
        { startup := startup, cycles := r.1, finish := [.printDivider, .printSystemInfo],
          outcome := .returned 1 }
      else
        { startup := startup, cycles := r.1,
          finish := [.printDivider, .printSystemInfo, .printDivider] ++ shutdown env,
          outcome := .returned 0 }

/-! ## Observations on traces -/

/-- The tag a call writes on command channel `c`, if it writes one. -/
def tagOn (c : Chan) : Event → Option Int
  | .write c1 (.tag t) => if c1 = c then some t else none
  | _ => none

/-- The tags written on command channel `c`, in order. -/
def cmdTags (c : Chan) (es : List Event) : List Int := es.filterMap (tagOn c)

/-- Recognises a call of `printDivider`. -/
def Event.isDivider : Event → Bool
  | .printDivider => true
  | _ => false

/-- Number of calls of `printDivider`. -/
def dividers (es : List Event) : Nat := es.countP Event.isDivider

/-- The tag a call reads from the notification pipe, if it reads one. -/
def bellOf : Event → Option Int
  | .readDoorbell t => some t
  | _ => none

/-- The tags read from the notification pipe, in order. -/
def doorbellTags (es : List Event) : List Int := es.filterMap bellOf

/-- Number of reads of the notification pipe. -/
def doorbellReads (es : List Event) : Nat := (doorbellTags es).length

/-- Recognises a call of `wait`. -/
def Event.isWait : Event → Bool
  | .wait => true
  | _ => false

/-- Number of calls of `wait`. -/
def waits (es : List Event) : Nat := es.countP Event.isWait

/-- Recognises a call of `fork`. -/
def Event.isFork : Event → Bool
  | .fork _ => true
  | _ => false

/-- Number of calls of `fork`. -/
def forks (es : List Event) : Nat := es.countP Event.isFork

/-- Calls that create a pipe, fork, sleep or write to a channel. -/
def Event.touchesWorkers : Event → Bool
  | .pipe _ => true
  | .fork _ => true
  | .sleep _ => true
  | .write _ _ => true
  | _ => false

/-- The memory result a call reads, if it reads one. -/
def memOf : Event → Option MemResult
  | .readMem m => some m
  | _ => none

/-- The CPU result a call reads, if it reads one. -/
def cpuOf : Event → Option CpuResult
  | .readCpu m => some m
  | _ => none

/-- The last memory result read in a list of calls. -/
def lastMem (es : List Event) : Option MemResult := (es.filterMap memOf).getLast?

/-- The last CPU result read in a list of calls. -/
def lastCpu (es : List Event) : Option CpuResult := (es.filterMap cpuOf).getLast?

/-! ## Vocabulary of the proofs -/

/-- Array store of the last value received, if one was received. -/
def storeLast {β : Type} (a : Nat → Option β) (i : Nat) : Option β → Nat → Option β
  | none => a
  | some x => setAt a i (some x)

/-- The locals after a pass of the `switch`, in terms of what it read. -/
structure Stored (i : Nat) (st : State) (evs : List Event) (s : State) : Prop where
  memoryOutput : s.memoryOutput = storeLast st.memoryOutput i ((lastMem evs).map MemResult.text)
  memorySamples :
    s.memorySamples = storeLast st.memorySamples i ((lastMem evs).map MemResult.sample)
  cpuOutput : s.cpuOutput = storeLast st.cpuOutput i ((lastCpu evs).map CpuResult.text)
  cpuData : s.cpuData = storeLast st.cpuData i ((lastCpu evs).map CpuResult.sample)
  cpuHistory : s.cpuHistory = st.cpuHistory

/-- Calls that the collection loop makes. -/
def Event.isInput : Event → Bool
  | .readDoorbell _ => true
  | .readMem _ => true
  | .readCpu _ => true
  | .readUser _ => true
  | .printf _ _ => true
  | _ => false

/-- What a pass through the loop body entered with locals `st` looks like. -/
structure CycleOf (T : Tags) (env : Env) (k : Nat) (st : State) (c : Cycle) : Prop where
  index : c.index = k
  sent : c.sent = sendCommands T env (resetCycle st k) k
  after : ∀ s, c.after = some s →
    needsMore s k = false ∧ Stored k (resetCycle st k) c.collected s ∧
      (∀ e ∈ c.collected, e.isInput = true) ∧ c.rendered = render env s k
  source : ∀ s, c.after = some s → ∃ bell f f1 rest,
    collect T env.spawns k bell (resetCycle st k) f = (c.collected, .ok (s, f1, rest))

/-- The calls of lines 66-154 when parsing and the baseline succeed. -/
def startupOk (env : Env) : List Event :=
  [.parseArguments, .printf "\x1b[2J\x1b[3J" [], .printf "\x1b[2J\x1b[H\n" [],
   .recordCpuStats, .sleep env.sampleDelay] ++ spawn env

/-- The line printed for a slot of an output array. -/
def lineOf : Option String → Event
  | none => .printf "\n" []
  | some s => .printf "%s" [.str (some s)]

/-- The outcome of the collection loop of cycle `i` when each of the three result tags
arrives once: every worker's result is stored, or the loop blocks on a missing result. -/
def collectedOnce (i : Nat) (st : State) (f : Feeds) (rest : List Int) :
    Except Stuck (State × Feeds × List Int) :=
  match f.mem, f.cpu, f.user with
  | m :: ms, r :: rs, u :: us =>
    .ok ({ cpuData := setAt st.cpuData i (some r.sample)
           cpuHistory := st.cpuHistory
           memorySamples := setAt st.memorySamples i (some m.sample)
           memoryOutput := setAt st.memoryOutput i (some m.text)
           cpuOutput := setAt st.cpuOutput i (some r.text)
           userInfo := some u
           processorCount := r.processorCount
           coreCount := r.coreCount
           averageCpuUsage := some r.average }, ⟨ms, rs, us⟩, rest)
  | _, _, _ => .error .blocked

/-! ## The concrete runs used as witnesses -/

/-- Tags 1..6, pairwise different. -/
def tags0 : Tags := ⟨1, 2, 3, 4, 5, 6⟩

/-- A memory result for cycle `k`. -/
def memRes (k : Nat) : MemResult := ⟨⟨k + 1, 16, k + 2, 32⟩, "mem\n"⟩

/-- A CPU result for cycle `k`. -/
def cpuRes (k : Nat) : CpuResult := ⟨4, 2, ⟨k + 10, 0, k + 5, 100, 0, 0, 0, 0⟩, "avg\n", "cpu\n"⟩

/-- One sample, default flags, every worker answers once. -/
def envOne : Env where
  parseRc := 0
  showSystem := false
  showUser := false
  showGraphics := false
  showSequential := false
  numSamples := 1
  sampleDelay := 0
  recordRc := 0
  baseline := ⟨7, 7, 7, 7, 7, 7, 7, 7⟩
  sysInfoRc := 0
  maxrss := fun _ => 0
  doorbell := [4, 5, 6]
  feeds := ⟨[memRes 0], [cpuRes 0], ["users\n"]⟩
  userInfo0 := none
  processorCount0 := 0
  coreCount0 := 0
  reaped := fun i => 100 + i

/-- Three samples; the workers answer in a different order in every cycle. -/
def envThree : Env :=
  { envOne with
    numSamples := 3
    sampleDelay := 1
    doorbell := [4, 5, 6, 6, 4, 5, 5, 6, 4]
    feeds := ⟨[memRes 0, memRes 1, memRes 2], [cpuRes 0, cpuRes 1, cpuRes 2],
      ["users\n", "users\n", "users\n"]⟩ }

/-- Invalid command line. -/
def envBadArgs : Env := { envOne with parseRc := 1 }

/-- The baseline cannot be read. -/
def envNoBaseline : Env := { envOne with recordRc := 1 }

/-- The system information cannot be printed after the last cycle. -/
def envSysInfoFails : Env := { envOne with sysInfoRc := 1 }

/-- The flag `--user` alone. -/
def envUserOnly : Env := { envOne with showUser := true }

/-- A worker's result is announced after an unknown tag. -/
def envUnknownTag : Env := { envOne with doorbell := [99, 4, 5, 6] }

/-- The memory worker delivers two results and rings twice in one cycle. -/
def envRingsTwice : Env :=
  { envOne with
    doorbell := [4, 4, 5, 6]
    feeds := ⟨[memRes 0, memRes 1], [cpuRes 0], ["users\n"]⟩ }

/-! ## The collection loop -/

theorem setAt_same {α : Type} (a : Nat → α) (i : Nat) (v : α) : setAt a i v i = v := by
  simp [setAt]

theorem setAt_other {α : Type} (a : Nat → α) (i j : Nat) (v : α) (h : j ≠ i) :
    setAt a i v j = a j := by
  simp [setAt, h]

theorem setAt_setAt {α : Type} (a : Nat → α) (i : Nat) (u v : α) :
    setAt (setAt a i u) i v = setAt a i v := by
  funext j
  by_cases h : j = i <;> simp [setAt, h]

theorem storeLast_storeLast {β : Type} (a : Nat → Option β) (i : Nat) (u v : Option β) :
    storeLast (storeLast a i u) i v = storeLast a i (v.or u) := by
  cases u <;> cases v <;> simp [storeLast, setAt_setAt]

theorem lastMem_append (a b : List Event) : lastMem (a ++ b) = (lastMem b).or (lastMem a) := by
  simp [lastMem, List.filterMap_append]

theorem lastCpu_append (a b : List Event) : lastCpu (a ++ b) = (lastCpu b).or (lastCpu a) := by
  simp [lastCpu, List.filterMap_append]

theorem option_map_or {α β : Type} (f : α → β) (u v : Option α) :
    (u.or v).map f = (u.map f).or (v.map f) := by
  cases u <;> simp

theorem Stored.refl (i : Nat) (st : State) : Stored i st [] st := by
  constructor <;> simp [lastMem, lastCpu, storeLast]

theorem Stored.trans {i : Nat} {st st1 s : State} {a b : List Event}
    (h1 : Stored i st a st1) (h2 : Stored i st1 b s) : Stored i st (a ++ b) s := by
  constructor
  · rw [h2.memoryOutput, h1.memoryOutput, storeLast_storeLast, lastMem_append, option_map_or]
  · rw [h2.memorySamples, h1.memorySamples, storeLast_storeLast, lastMem_append, option_map_or]
  · rw [h2.cpuOutput, h1.cpuOutput, storeLast_storeLast, lastCpu_append, option_map_or]
  · rw [h2.cpuData, h1.cpuData, storeLast_storeLast, lastCpu_append, option_map_or]
  · rw [h2.cpuHistory, h1.cpuHistory]

theorem dispatch_stored {T : Tags} {i : Nat} {t : Int} {st s : State} {f f1 : Feeds}
    {evs : List Event} (h : dispatch T i t st f = .ok (evs, s, f1)) :
    Stored i st evs s ∧ doorbellTags evs = [] ∧ ∀ e ∈ evs, e.isInput = true := by
  unfold dispatch at h
  split at h
  · split at h
    · cases h
    · cases h
      refine ⟨?_, rfl, by simp [Event.isInput]⟩
      constructor <;> simp [lastMem, lastCpu, storeLast, memOf, cpuOf]
  · split at h
    · split at h
      · cases h
      · cases h
        refine ⟨?_, rfl, by simp [Event.isInput]⟩
        constructor <;> simp [lastMem, lastCpu, storeLast, memOf, cpuOf]
    · split at h
      · split at h
        · cases h
        · cases h
          refine ⟨?_, rfl, by simp [Event.isInput]⟩
          constructor <;> simp [lastMem, lastCpu, storeLast, memOf, cpuOf]
      · cases h
        exact ⟨Stored.refl i st, rfl, by simp⟩

theorem collect_stored (T : Tags) (w : Bool) (i : Nat) :
    ∀ (bell : List Int) (st : State) (f : Feeds) (evs : List Event) (s : State) (f1 : Feeds)
      (rest : List Int), collect T w i bell st f = (evs, .ok (s, f1, rest)) →
      needsMore s i = false ∧ Stored i st evs s ∧ (∀ e ∈ evs, e.isInput = true) ∧
        doorbellTags evs ++ rest = bell := by
  intro bell
  induction bell with
  | nil =>
    intro st f evs s f1 rest h
    unfold collect at h
    split at h
    · split at h
      · cases h
      · split at h <;> cases h
    · rename_i hn
      cases h
      exact ⟨by simpa using hn, Stored.refl i st, by simp, rfl⟩
  | cons t bell ih =>
    intro st f evs s f1 rest h
    unfold collect at h
    split at h
    · split at h
      · cases h
      · rename_i devs st1 f2 hd
        simp only [Prod.mk.injEq] at h
        obtain ⟨h1, h2⟩ := h
        obtain ⟨hs, hb, hi⟩ := dispatch_stored hd
        obtain ⟨a1, a2, a3, a4⟩ := ih st1 f2 _ s f1 rest (Prod.ext rfl h2)
        subst h1
        refine ⟨a1, ?_, ?_, ?_⟩
        · have h0 : Stored i st [Event.readDoorbell t,
              Event.printf "Received info of type %d" [Arg.int t]] st := by
            constructor <;> simp [lastMem, lastCpu, storeLast, memOf, cpuOf]
          simpa using (h0.trans hs).trans a2
        · intro e he
          simp only [List.mem_append, List.mem_cons, List.mem_singleton, List.append_assoc,
            List.cons_append, List.nil_append] at he
          rcases he with rfl | rfl | he | he
          · rfl
          · rfl
          · exact hi e he
          · exact a3 e he
        · simp only [doorbellTags, List.filterMap_append] at hb a4 ⊢
          simp [hb, bellOf, a4]
    · rename_i hn
      cases h
      exact ⟨by simpa using hn, Stored.refl i st, by simp, rfl⟩

/-! ## The cycles -/

theorem cycleBody_spec (T : Tags) (env : Env) (k : Nat) (st : State) (f : Feeds)
    (b : List Int) : CycleOf T env k st (cycleBody T env k st f b).1 := by
  cases h : collect T env.spawns k b (resetCycle st k) f with
  | mk evs res =>
    cases res with
    | error e =>
      simp only [cycleBody, h]
      exact ⟨rfl, rfl, fun s hs => (by cases hs), fun s hs => (by cases hs)⟩
    | ok x =>
      obtain ⟨s1, f1, b1⟩ := x
      obtain ⟨a1, a2, a3, _⟩ := collect_stored T env.spawns k b (resetCycle st k) f evs s1 f1 b1 h
      simp only [cycleBody, h]
      refine ⟨rfl, rfl, ?_, ?_⟩
      · intro s hs
        cases hs
        exact ⟨a1, a2, a3, rfl⟩
      · intro s hs
        cases hs
        exact ⟨b, f, f1, b1, h⟩

theorem cycleBody_ok (T : Tags) (env : Env) (k : Nat) (st : State) (f : Feeds)
    (b : List Int) (c : Cycle) (x : State × Feeds × List Int)
    (h : cycleBody T env k st f b = (c, .ok x)) : c.after = some x.1 := by
  cases hc : collect T env.spawns k b (resetCycle st k) f with
  | mk evs res =>
    cases res with
    | error e => simp [cycleBody, hc] at h
    | ok y =>
      simp only [cycleBody, hc, Prod.mk.injEq, Except.ok.injEq] at h
      obtain ⟨h1, h2⟩ := h
      subst h1 h2
      rfl

theorem cycles_get (T : Tags) (env : Env) :
    ∀ (n k : Nat) (st : State) (f : Feeds) (b : List Int) (p : Nat) (c : Cycle),
      (cycles T env n k st f b).1[p]? = some c →
      ∃ st0, CycleOf T env (k + p) st0 c ∧ (p = 0 → st0 = st) ∧
        ∀ q, p = q + 1 →
          ∃ cq, (cycles T env n k st f b).1[q]? = some cq ∧ cq.after = some st0 := by
  intro n
  induction n with
  | zero => intro k st f b p c h; simp [cycles] at h
  | succ n ih =>
    intro k st f b p c h
    unfold cycles at h ⊢
    have hspec := cycleBody_spec T env k st f b
    cases hb : cycleBody T env k st f b with
    | mk c0 res =>
      rw [hb] at hspec
      simp only [hb] at h ⊢
      cases res with
      | error e =>
        simp only at h ⊢
        cases p with
        | zero =>
          simp at h; subst h
          exact ⟨st, hspec, fun _ => rfl, by intro q hq; omega⟩
        | succ p => simp at h
      | ok x =>
        obtain ⟨s1, f1, b1⟩ := x
        simp only at h ⊢
        cases p with
        | zero =>
          simp at h; subst h
          exact ⟨st, hspec, fun _ => rfl, by intro q hq; omega⟩
        | succ p =>
          simp only [List.getElem?_cons_succ] at h
          obtain ⟨st0, h1, h2, h3⟩ := ih (k + 1) s1 f1 b1 p c h
          refine ⟨st0, by simpa [Nat.add_assoc, Nat.add_comm 1 p] using h1, by omega, ?_⟩
          intro q hq
          have hqp : q = p := by omega
          subst hqp
          cases q with
          | zero =>
            refine ⟨c0, by simp, ?_⟩
            rw [h2 rfl]
            exact cycleBody_ok T env k st f b c0 (s1, f1, b1) hb
          | succ q =>
            obtain ⟨cq, g1, g2⟩ := h3 q rfl
            exact ⟨cq, by simpa using g1, g2⟩

theorem cycles_ok (T : Tags) (env : Env) :
    ∀ (n k : Nat) (st : State) (f : Feeds) (b : List Int) (x : State × Feeds × List Int),
      (cycles T env n k st f b).2 = .ok x →
      (cycles T env n k st f b).1.length = n ∧
        ∀ c ∈ (cycles T env n k st f b).1, c.after.isSome = true := by
  intro n
  induction n with
  | zero => intro k st f b x _; simp [cycles]
  | succ n ih =>
    intro k st f b x h
    unfold cycles at h ⊢
    cases hb : cycleBody T env k st f b with
    | mk c0 res =>
      simp only [hb] at h ⊢
      cases res with
      | error e => simp at h
      | ok y =>
        obtain ⟨s1, f1, b1⟩ := y
        simp only at h ⊢
        obtain ⟨g1, g2⟩ := ih (k + 1) s1 f1 b1 x h
        refine ⟨by simp [g1], ?_⟩
        intro c hc
        simp only [List.mem_cons] at hc
        rcases hc with rfl | hc
        · rw [cycleBody_ok T env k st f b c (s1, f1, b1) hb]; rfl
        · exact g2 c hc

theorem cycles_length_le (T : Tags) (env : Env) :
    ∀ (n k : Nat) (st : State) (f : Feeds) (b : List Int),
      (cycles T env n k st f b).1.length ≤ n := by
  intro n
  induction n with
  | zero => intro k st f b; simp [cycles]
  | succ n ih =>
    intro k st f b
    unfold cycles
    cases hb : cycleBody T env k st f b with
    | mk c0 res =>
      cases res with
      | error e => simp
      | ok y =>
        obtain ⟨s1, f1, b1⟩ := y
        simpa using ih (k + 1) s1 f1 b1

/-! ## Runs of `main` -/

theorem main_cycles (T : Tags) (env : Env) (h1 : env.parseRc = 0) (h2 : env.recordRc = 0) :
    (main T env).startup = startupOk env ∧
    (main T env).cycles =
      (cycles T env env.numSamples 0 (initState env) env.feeds
        (if env.spawns then env.doorbell else [])).1 := by
  unfold main
  simp only [h1, h2, ne_eq, not_true_eq_false, if_false]
  split
  · exact ⟨rfl, rfl⟩
  · split <;> exact ⟨rfl, rfl⟩

theorem main_cycles_nil (T : Tags) (env : Env) (h : env.parseRc ≠ 0 ∨ env.recordRc ≠ 0) :
    (main T env).cycles = [] := by
  unfold main
  by_cases h1 : env.parseRc = 0
  · have h2 : env.recordRc ≠ 0 := by
      rcases h with h | h
      · exact absurd h1 h
      · exact h
    simp [h1, h2]
  · simp [h1]

theorem main_get (T : Tags) (env : Env) (p : Nat) (c : Cycle)
    (h : (main T env).cycles[p]? = some c) :
    ∃ st0, CycleOf T env p st0 c ∧ (p = 0 → st0 = initState env) ∧
      ∀ q, p = q + 1 → ∃ cq, (main T env).cycles[q]? = some cq ∧ cq.after = some st0 := by
  by_cases h1 : env.parseRc = 0
  · by_cases h2 : env.recordRc = 0
    · rw [(main_cycles T env h1 h2).2] at h ⊢
      simpa using cycles_get T env _ 0 _ _ _ p c h
    · rw [main_cycles_nil T env (Or.inr h2)] at h; simp at h
  · rw [main_cycles_nil T env (Or.inl h1)] at h; simp at h

theorem main_length_le (T : Tags) (env : Env) : (main T env).cycles.length ≤ env.numSamples := by
  by_cases h1 : env.parseRc = 0
  · by_cases h2 : env.recordRc = 0
    · rw [(main_cycles T env h1 h2).2]
      exact cycles_length_le T env _ _ _ _ _
    · rw [main_cycles_nil T env (Or.inr h2)]; simp
  · rw [main_cycles_nil T env (Or.inl h1)]; simp

/-- The shape of a run that returns 0. -/
theorem main_returned_zero (T : Tags) (env : Env) (h : (main T env).outcome = .returned 0) :
    (main T env).startup = startupOk env ∧
    (main T env).cycles.length = env.numSamples ∧
    (∀ c ∈ (main T env).cycles, c.after.isSome = true) ∧
    (main T env).finish = [.printDivider, .printSystemInfo, .printDivider] ++ shutdown env := by
  by_cases h1 : env.parseRc = 0
  · by_cases h2 : env.recordRc = 0
    · have hc := main_cycles T env h1 h2
      refine ⟨hc.1, ?_⟩
      rw [hc.2]
      unfold main at h ⊢
      simp only [h1, h2, ne_eq, not_true_eq_false, if_false] at h ⊢
      cases hr : (cycles T env env.numSamples 0 (initState env) env.feeds
          (if env.spawns then env.doorbell else [])).2 with
      | error e => simp [hr] at h
      | ok x =>
        obtain ⟨g1, g2⟩ := cycles_ok T env _ _ _ _ _ x hr
        refine ⟨g1, g2, ?_⟩
        simp only [hr] at h ⊢
        by_cases h3 : env.sysInfoRc = 0
        · simp [h3]
        · simp [h3] at h
    · simp [main, h1, h2] at h
  · simp [main, h1] at h

/-! ## Counting calls -/

theorem cmdTags_append (ch : Chan) (a b : List Event) :
    cmdTags ch (a ++ b) = cmdTags ch a ++ cmdTags ch b := by
  simp [cmdTags, List.filterMap_append]

theorem dividers_append (a b : List Event) : dividers (a ++ b) = dividers a + dividers b := by
  simp [dividers, List.countP_append]

theorem input_silent (ch : Chan) (e : Event) (h : e.isInput = true) :
    tagOn ch e = none ∧ e.isDivider = false := by
  cases e <;> first | exact ⟨rfl, rfl⟩ | cases h

theorem inputs_silent (ch : Chan) (evs : List Event) (h : ∀ e ∈ evs, e.isInput = true) :
    cmdTags ch evs = [] ∧ dividers evs = 0 := by
  induction evs with
  | nil => exact ⟨rfl, rfl⟩
  | cons e es ih =>
    obtain ⟨t1, t2⟩ := input_silent ch e (h e (List.mem_cons_self e es))
    obtain ⟨i1, i2⟩ := ih (fun x hx => h x (List.mem_cons_of_mem e hx))
    constructor
    · unfold cmdTags at i1 ⊢
      rw [List.filterMap_cons_none t1, i1]
    · unfold dividers at i2 ⊢
      rw [List.countP_cons_of_neg, i2]
      simp [t2]

theorem memoryLines_inputs (n : Nat) (st : State) : ∀ e ∈ memoryLines n st, e.isInput = true := by
  intro e he
  simp only [memoryLines, List.mem_map] at he
  obtain ⟨i, _, rfl⟩ := he
  cases st.memoryOutput i <;> rfl

theorem cpuLines_inputs (n : Nat) (st : State) : ∀ e ∈ cpuLines n st, e.isInput = true := by
  intro e he
  simp only [cpuLines, List.mem_map] at he
  obtain ⟨i, _, rfl⟩ := he
  cases st.cpuOutput i <;> rfl

theorem sendCommands_tags (T : Tags) (env : Env) (st : State) (k : Nat) (ch : Chan)
    (hsp : env.spawns = true) :
    cmdTags ch (sendCommands T env st k) = [T.start ch] ∧
      dividers (sendCommands T env st k) = 0 := by
  by_cases hk : k > 0 <;> cases ch <;>
    simp [sendCommands, hsp, hk, cmdTags, tagOn, Tags.start, dividers, Event.isDivider]

theorem sendCommands_dividers (T : Tags) (env : Env) (st : State) (k : Nat) :
    dividers (sendCommands T env st k) = 0 := by
  by_cases hk : k > 0 <;> cases hsp : env.spawns <;>
    simp [sendCommands, hsp, hk, dividers, Event.isDivider]

theorem frameHead_census (env : Env) (k : Nat) (ch : Chan) :
    cmdTags ch (frameHead env k) = [] ∧ dividers (frameHead env k) = 2 := by
  unfold frameHead
  cases env.showSequential <;> exact ⟨rfl, rfl⟩

theorem memoryHeader_census (env : Env) (ch : Chan) :
    cmdTags ch [memoryHeader env] = [] ∧ dividers [memoryHeader env] = 0 := by
  unfold memoryHeader
  cases env.showGraphics <;> exact ⟨rfl, rfl⟩

theorem cpuHeader_census (env : Env) (ch : Chan) :
    cmdTags ch [cpuHeader env] = [] ∧ dividers [cpuHeader env] = 0 := by
  unfold cpuHeader
  cases env.showGraphics <;> exact ⟨rfl, rfl⟩

theorem frameMiddle_census (env : Env) (s : State) (ch : Chan) :
    cmdTags ch (frameMiddle env s) = [] ∧
      dividers (frameMiddle env s) = if env.showUser || !env.showSystem then 2 else 1 := by
  unfold frameMiddle
  cases env.showUser <;> cases env.showSystem <;> exact ⟨rfl, rfl⟩

theorem frameTail_census (env : Env) (k : Nat) (ch : Chan) :
    cmdTags ch (frameTail env k) = [] ∧ dividers (frameTail env k) = 0 := by
  unfold frameTail
  by_cases hk : k + 1 < env.numSamples
  · rw [if_pos hk]; exact ⟨rfl, rfl⟩
  · rw [if_neg hk]; exact ⟨rfl, rfl⟩

theorem render_census (env : Env) (s : State) (k : Nat) (ch : Chan) :
    cmdTags ch (render env s k) = [] ∧
      dividers (render env s k) = if env.showUser || !env.showSystem then 6 else 5 := by
  obtain ⟨m1, m2⟩ := inputs_silent ch _ (memoryLines_inputs env.numSamples s)
  obtain ⟨c1, c2⟩ := inputs_silent ch _ (cpuLines_inputs env.numSamples s)
  obtain ⟨a1, a2⟩ := frameHead_census env k ch
  obtain ⟨b1, b2⟩ := memoryHeader_census env ch
  obtain ⟨d1, d2⟩ := frameMiddle_census env s ch
  obtain ⟨e1, e2⟩ := cpuHeader_census env ch
  obtain ⟨f1, f2⟩ := frameTail_census env k ch
  have g1 : cmdTags ch [Event.printDivider] = [] := rfl
  have g2 : dividers [Event.printDivider] = 1 := rfl
  unfold render
  constructor
  · rw [cmdTags_append, cmdTags_append, cmdTags_append, cmdTags_append, cmdTags_append,
      cmdTags_append, cmdTags_append, cmdTags_append, a1, b1, m1, g1, d1, e1, c1, f1]
    rfl
  · rw [dividers_append, dividers_append, dividers_append, dividers_append, dividers_append,
      dividers_append, dividers_append, dividers_append, a2, b2, m2, g2, d2, e2, c2, f2]
    split <;> rfl

theorem cycle_census {T : Tags} {env : Env} {k : Nat} {st0 s : State} {c : Cycle}
    (hc : CycleOf T env k st0 c) (hs : c.after = some s) (ch : Chan) :
    (env.spawns = true → cmdTags ch c.events = [T.start ch]) ∧
      dividers c.events = if env.showUser || !env.showSystem then 6 else 5 := by
  obtain ⟨_, _, a3, a4⟩ := hc.after s hs
  obtain ⟨i1, i2⟩ := inputs_silent ch _ a3
  obtain ⟨r1, r2⟩ := render_census env s k ch
  constructor
  · intro hsp
    simp [Cycle.events, cmdTags_append, hc.sent, a4, i1, r1,
      (sendCommands_tags T env (resetCycle st0 k) k ch hsp).1]
  · simp [Cycle.events, dividers_append, hc.sent, a4, i2, r2, sendCommands_dividers]

theorem flatMap_census (ch : Chan) (x : Int) (d : Nat) :
    ∀ cs : List Cycle,
      (∀ c ∈ cs, cmdTags ch c.events = [x]) → (∀ c ∈ cs, dividers c.events = d) →
      cmdTags ch (cs.flatMap Cycle.events) = List.replicate cs.length x ∧
        dividers (cs.flatMap Cycle.events) = d * cs.length := by
  intro cs
  induction cs with
  | nil => intro _ _; exact ⟨rfl, rfl⟩
  | cons c cs ih =>
    intro h1 h2
    obtain ⟨i1, i2⟩ := ih (fun y hy => h1 y (by simp [hy])) (fun y hy => h2 y (by simp [hy]))
    constructor
    · simp [List.flatMap_cons, cmdTags_append, h1 c (by simp), i1, List.replicate_succ]
    · simp [List.flatMap_cons, dividers_append, h2 c (by simp), i2, Nat.mul_succ, Nat.add_comm]

theorem flatMap_dividers (d : Nat) :
    ∀ cs : List Cycle, (∀ c ∈ cs, dividers c.events = d) →
      dividers (cs.flatMap Cycle.events) = d * cs.length := by
  intro cs
  induction cs with
  | nil => intro _; rfl
  | cons c cs ih =>
    intro h2
    have i2 := ih (fun y hy => h2 y (by simp [hy]))
    simp [List.flatMap_cons, dividers_append, h2 c (by simp), i2, Nat.mul_succ, Nat.add_comm]

theorem startup_census (env : Env) (ch : Chan) :
    cmdTags ch (startupOk env) = [] ∧ dividers (startupOk env) = 0 := by
  cases hsp : env.spawns <;>
    simp [startupOk, spawn, spawnWorker, hsp, cmdTags, tagOn, dividers, Event.isDivider]

theorem finish_census (env : Env) (ch : Chan) :
    cmdTags ch ([.printDivider, .printSystemInfo, .printDivider] ++ shutdown env) = [-1] ∧
      dividers ([.printDivider, .printSystemInfo, .printDivider] ++ shutdown env) = 2 := by
  cases ch <;> exact ⟨rfl, rfl⟩

theorem cycles_error (T : Tags) (env : Env) :
    ∀ (n k : Nat) (st : State) (f : Feeds) (b : List Int) (e : Stuck),
      (cycles T env n k st f b).2 = .error e →
      ∃ c ∈ (cycles T env n k st f b).1, c.after = none := by
  intro n
  induction n with
  | zero => intro k st f b e h; simp [cycles] at h
  | succ n ih =>
    intro k st f b e h
    unfold cycles at h ⊢
    cases hb : cycleBody T env k st f b with
    | mk c0 res =>
      simp only [hb] at h ⊢
      cases res with
      | error e1 =>
        refine ⟨c0, by simp, ?_⟩
        cases hc : collect T env.spawns k b (resetCycle st k) f with
        | mk evs r =>
          cases r with
          | error e2 =>
            simp only [cycleBody, hc, Prod.mk.injEq] at hb
            rw [← hb.1]
          | ok y => simp [cycleBody, hc] at hb
      | ok y =>
        obtain ⟨s1, f1, b1⟩ := y
        simp only at h ⊢
        obtain ⟨c, g1, g2⟩ := ih (k + 1) s1 f1 b1 e h
        exact ⟨c, by simp [g1], g2⟩

theorem mem_cycles_census (T : Tags) (env : Env) (c : Cycle) (hc : c ∈ (main T env).cycles)
    (hs : c.after.isSome = true) (ch : Chan) :
    (env.spawns = true → cmdTags ch c.events = [T.start ch]) ∧
      dividers c.events = if env.showUser || !env.showSystem then 6 else 5 := by
  obtain ⟨p, hp⟩ := List.mem_iff_getElem?.mp hc
  obtain ⟨st0, h0, _, _⟩ := main_get T env p c hp
  obtain ⟨s, hs1⟩ := Option.isSome_iff_exists.mp hs
  exact cycle_census h0 hs1 ch

theorem storeLast_none_at {β : Type} (a : Nat → Option β) (i : Nat) (v : Option β)
    (h : a i = none) : storeLast a i v i = v := by
  cases v <;> simp [storeLast, setAt, h]

theorem storeLast_other {β : Type} (a : Nat → Option β) (i j : Nat) (v : Option β)
    (h : j ≠ i) : storeLast a i v j = a j := by
  cases v <;> simp [storeLast, setAt, h]

/-- What the locals hold when the collection loop of a cycle entered with `st0` is left. -/
theorem stored_after_reset {k : Nat} {st0 s : State} {evs : List Event}
    (hn : needsMore s k = false) (hs : Stored k (resetCycle st0 k) evs s) :
    (∃ m r, lastMem evs = some m ∧ lastCpu evs = some r ∧
      s.memoryOutput k = some m.text ∧ s.cpuOutput k = some r.text ∧
      s.memorySamples k = some m.sample ∧ s.cpuData k = some r.sample) ∧
    (∀ j, j ≠ k → s.memoryOutput j = st0.memoryOutput j ∧ s.cpuOutput j = st0.cpuOutput j) ∧
    s.cpuHistory = st0.cpuHistory := by
  have hmo : s.memoryOutput k = (lastMem evs).map MemResult.text := by
    rw [hs.memoryOutput]; exact storeLast_none_at _ _ _ (by simp [resetCycle, setAt])
  have hco : s.cpuOutput k = (lastCpu evs).map CpuResult.text := by
    rw [hs.cpuOutput]; exact storeLast_none_at _ _ _ (by simp [resetCycle, setAt])
  simp only [needsMore, Bool.or_eq_false_iff] at hn
  obtain ⟨⟨n1, n2⟩, _⟩ := hn
  refine ⟨?_, ?_, ?_⟩
  · cases hm : lastMem evs with
    | none => rw [hmo, hm] at n1; simp at n1
    | some m =>
      cases hr : lastCpu evs with
      | none => rw [hco, hr] at n2; simp at n2
      | some r =>
        refine ⟨m, r, rfl, rfl, ?_, ?_, ?_, ?_⟩
        · rw [hmo, hm]; rfl
        · rw [hco, hr]; rfl
        · rw [hs.memorySamples, hm]; simp [storeLast, setAt]
        · rw [hs.cpuData, hr]; simp [storeLast, setAt]
  · intro j hj
    rw [hs.memoryOutput, hs.cpuOutput, storeLast_other _ _ _ _ hj, storeLast_other _ _ _ _ hj]
    simp [resetCycle, setAt, hj]
  · rw [hs.cpuHistory]; rfl

/-- The locals after the collection loop of cycle `p` of a run. -/
theorem main_after (T : Tags) (env : Env) :
    ∀ (p : Nat) (c : Cycle) (s : State),
      (main T env).cycles[p]? = some c → c.after = some s →
      s.cpuHistory = (fun _ => 0) ∧
      (∀ j, p < j → s.memoryOutput j = none ∧ s.cpuOutput j = none) ∧
      (∀ j, j ≤ p → ∃ cj m r, (main T env).cycles[j]? = some cj ∧
        lastMem cj.collected = some m ∧ lastCpu cj.collected = some r ∧
        s.memoryOutput j = some m.text ∧ s.cpuOutput j = some r.text) ∧
      (∃ m r, lastMem c.collected = some m ∧ lastCpu c.collected = some r ∧
        s.memorySamples p = some m.sample ∧ s.cpuData p = some r.sample) := by
  intro p
  induction p with
  | zero =>
    intro c s hc hs
    obtain ⟨st0, h0, h1, _⟩ := main_get T env 0 c hc
    obtain ⟨a1, a2, _, _⟩ := h0.after s hs
    obtain ⟨⟨m, r, b1, b2, b3, b4, b5, b6⟩, b7, b8⟩ := stored_after_reset a1 a2
    rw [h1 rfl] at b7 b8
    refine ⟨b8, ?_, ?_, ⟨m, r, b1, b2, b5, b6⟩⟩
    · intro j hj
      exact b7 j (by omega)
    · intro j hj
      have : j = 0 := by omega
      subst this
      exact ⟨c, m, r, hc, b1, b2, b3, b4⟩
  | succ q ih =>
    intro c s hc hs
    obtain ⟨st0, h0, _, h2⟩ := main_get T env (q + 1) c hc
    obtain ⟨cq, g1, g2⟩ := h2 q rfl
    obtain ⟨i1, i2, i3, _⟩ := ih cq st0 g1 g2
    obtain ⟨a1, a2, _, _⟩ := h0.after s hs
    obtain ⟨⟨m, r, b1, b2, b3, b4, b5, b6⟩, b7, b8⟩ := stored_after_reset a1 a2
    refine ⟨by rw [b8, i1], ?_, ?_, ⟨m, r, b1, b2, b5, b6⟩⟩
    · intro j hj
      obtain ⟨e1, e2⟩ := b7 j (by omega)
      obtain ⟨e3, e4⟩ := i2 j (by omega)
      exact ⟨by rw [e1, e3], by rw [e2, e4]⟩
    · intro j hj
      by_cases hjq : j = q + 1
      · subst hjq
        exact ⟨c, m, r, hc, b1, b2, b3, b4⟩
      · obtain ⟨e1, e2⟩ := b7 j hjq
        obtain ⟨cj, mj, rj, f1, f2, f3, f4, f5⟩ := i3 j (by omega)
        exact ⟨cj, mj, rj, f1, f2, f3, by rw [e1, f4], by rw [e2, f5]⟩

theorem memoryLines_eq (n : Nat) (st : State) :
    memoryLines n st = (List.range n).map fun i => lineOf (st.memoryOutput i) := by
  unfold memoryLines
  apply List.map_congr_left
  intro i _
  cases st.memoryOutput i <;> rfl

theorem cpuLines_eq (n : Nat) (st : State) :
    cpuLines n st = (List.range n).map fun i => lineOf (st.cpuOutput i) := by
  unfold cpuLines
  apply List.map_congr_left
  intro i _
  cases st.cpuOutput i <;> rfl

/-- An output array filled up to slot `k` prints its `k + 1` blobs and then empty lines. -/
theorem lines_split (n k : Nat) (hk : k < n) (g : Nat → Option String)
    (h1 : ∀ j, j ≤ k → (g j).isSome = true) (h2 : ∀ j, k < j → g j = none) :
    ((List.range n).map fun i => lineOf (g i)) =
      (((List.range (k + 1)).map fun j => (g j).getD "").map
        fun b => Event.printf "%s" [.str (some b)]) ++
      List.replicate (n - 1 - k) (Event.printf "\n" []) := by
  have hn : n = (k + 1) + (n - 1 - k) := by omega
  conv_lhs => rw [hn, List.range_add, List.map_append]
  congr 1
  · rw [List.map_map]
    apply List.map_congr_left
    intro j hj
    have hj1 : j ≤ k := by
      have := List.mem_range.mp hj
      omega
    obtain ⟨b, hb⟩ := Option.isSome_iff_exists.mp (h1 j hj1)
    simp [hb, lineOf]
  · rw [List.map_map]
    apply List.eq_replicate_iff.mpr
    refine ⟨by simp, ?_⟩
    intro e he
    simp only [List.mem_map, List.mem_range, Function.comp] at he
    obtain ⟨x, _, rfl⟩ := he
    rw [h2 (k + 1 + x) (by omega)]
    rfl

/-! ## Which tags the collection loop reads -/

theorem dispatch_slots {T : Tags} {i : Nat} {t : Int} {st s : State} {f f1 : Feeds}
    {evs : List Event} (h : dispatch T i t st f = .ok (evs, s, f1)) :
    (t ≠ T.MEM_DATA_ID → s.memoryOutput i = st.memoryOutput i) ∧
    (t ≠ T.CPU_DATA_ID → s.cpuOutput i = st.cpuOutput i) ∧
    (t ≠ T.USER_DATA_ID → s.userInfo = st.userInfo) ∧
    (T.distinct → t = T.MEM_DATA_ID → (s.memoryOutput i).isNone = false) ∧
    (T.distinct → t = T.CPU_DATA_ID → (s.cpuOutput i).isNone = false) ∧
    (T.distinct → t = T.USER_DATA_ID → s.userInfo.isNone = false) := by
  unfold dispatch at h
  unfold Tags.distinct
  split at h
  · rename_i h1
    split at h
    · cases h
    · cases h
      refine ⟨fun g => absurd h1 g, fun _ => rfl, fun _ => rfl, fun _ _ => by simp [setAt],
        ?_, ?_⟩
      · intro d g; rw [h1] at g; exact absurd g d.1
      · intro d g; rw [h1] at g; exact absurd g d.2.1
  · rename_i h1
    split at h
    · rename_i h2
      split at h
      · cases h
      · cases h
        refine ⟨fun _ => rfl, fun g => absurd h2 g, fun _ => rfl, fun _ g => absurd g h1,
          fun _ _ => by simp [setAt], ?_⟩
        intro d g; rw [h2] at g; exact absurd g d.2.2
    · rename_i h2
      split at h
      · rename_i h3
        split at h
        · cases h
        · cases h
          exact ⟨fun _ => rfl, fun _ => rfl, fun g => absurd h3 g, fun _ g => absurd g h1,
            fun _ g => absurd g h2, fun _ _ => rfl⟩
      · rename_i h3
        cases h
        exact ⟨fun _ => rfl, fun _ => rfl, fun _ => rfl, fun _ g => absurd g h1,
          fun _ g => absurd g h2, fun _ g => absurd g h3⟩

/-- The loop reads tags until every empty slot has been announced, and no further. -/
theorem collect_tags (T : Tags) (hT : T.distinct) (w : Bool) (i : Nat) :
    ∀ (bell : List Int) (st : State) (f : Feeds) (evs : List Event) (s : State) (f1 : Feeds)
      (rest : List Int), collect T w i bell st f = (evs, .ok (s, f1, rest)) →
      ((st.memoryOutput i).isNone = true → T.MEM_DATA_ID ∈ doorbellTags evs) ∧
      ((st.cpuOutput i).isNone = true → T.CPU_DATA_ID ∈ doorbellTags evs) ∧
      (st.userInfo.isNone = true → T.USER_DATA_ID ∈ doorbellTags evs) ∧
      (doorbellTags evs ≠ [] →
        ((st.memoryOutput i).isNone = true ∧ T.MEM_DATA_ID ∉ (doorbellTags evs).dropLast) ∨
        ((st.cpuOutput i).isNone = true ∧ T.CPU_DATA_ID ∉ (doorbellTags evs).dropLast) ∨
        (st.userInfo.isNone = true ∧ T.USER_DATA_ID ∉ (doorbellTags evs).dropLast)) := by
  intro bell
  induction bell with
  | nil =>
    intro st f evs s f1 rest h
    unfold collect at h
    split at h
    · split at h
      · cases h
      · split at h <;> cases h
    · rename_i hn
      cases h
      simp only [needsMore, Bool.or_eq_true, not_or, Bool.not_eq_true] at hn
      obtain ⟨⟨n1, n2⟩, n3⟩ := hn
      simp [n1, n2, n3, doorbellTags]
  | cons t bell ih =>
    intro st f evs s f1 rest h
    unfold collect at h
    split at h
    · rename_i hn
      split at h
      · cases h
      · rename_i devs st1 f2 hd
        simp only [Prod.mk.injEq] at h
        obtain ⟨h1, h2⟩ := h
        obtain ⟨_, hb, _⟩ := dispatch_stored hd
        obtain ⟨d1, d2, d3, d4, d5, d6⟩ := dispatch_slots hd
        obtain ⟨a1, a2, a3, a4⟩ := ih st1 f2 _ s f1 rest (Prod.ext rfl h2)
        have htags : doorbellTags evs =
            t :: doorbellTags (collect T w i bell st1 f2).1 := by
          subst h1
          simp only [doorbellTags, List.filterMap_append] at hb ⊢
          simp [hb, bellOf]
        rw [htags]
        refine ⟨?_, ?_, ?_, ?_⟩
        · intro g
          by_cases e : t = T.MEM_DATA_ID
          · simp [e]
          · exact List.mem_cons_of_mem _ (a1 (by rw [d1 e]; exact g))
        · intro g
          by_cases e : t = T.CPU_DATA_ID
          · simp [e]
          · exact List.mem_cons_of_mem _ (a2 (by rw [d2 e]; exact g))
        · intro g
          by_cases e : t = T.USER_DATA_ID
          · simp [e]
          · exact List.mem_cons_of_mem _ (a3 (by rw [d3 e]; exact g))
        · intro _
          by_cases hne : doorbellTags (collect T w i bell st1 f2).1 = []
          · rw [hne]
            simp only [needsMore, Bool.or_eq_true] at hn
            simpa [or_assoc] using hn
          · obtain ⟨ys, y, hy⟩ : ∃ ys y,
                doorbellTags (collect T w i bell st1 f2).1 = ys ++ [y] :=
              ⟨_, _, (List.dropLast_append_getLast hne).symm⟩
            have hdl : (doorbellTags (collect T w i bell st1 f2).1).dropLast = ys := by
              rw [hy]; simp
            have hdl2 : (t :: doorbellTags (collect T w i bell st1 f2).1).dropLast
                = t :: ys := by
              rw [hy]
              simp [List.dropLast_cons_of_ne_nil]
            rw [hdl2]
            rw [hdl] at a4
            rcases a4 hne with ⟨g1, g2⟩ | ⟨g1, g2⟩ | ⟨g1, g2⟩
            · have e : t ≠ T.MEM_DATA_ID := by
                intro e
                rw [d4 hT e] at g1
                cases g1
              exact Or.inl ⟨by rw [← d1 e]; exact g1, by
                simp only [List.mem_cons, not_or]; exact ⟨fun x => e x.symm, g2⟩⟩
            · have e : t ≠ T.CPU_DATA_ID := by
                intro e
                rw [d5 hT e] at g1
                cases g1
              exact Or.inr (Or.inl ⟨by rw [← d2 e]; exact g1, by
                simp only [List.mem_cons, not_or]; exact ⟨fun x => e x.symm, g2⟩⟩)
            · have e : t ≠ T.USER_DATA_ID := by
                intro e
                rw [d6 hT e] at g1
                cases g1
              exact Or.inr (Or.inr ⟨by rw [← d3 e]; exact g1, by
                simp only [List.mem_cons, not_or]; exact ⟨fun x => e x.symm, g2⟩⟩)
    · rename_i hn
      cases h
      simp only [needsMore, Bool.or_eq_true, not_or, Bool.not_eq_true] at hn
      obtain ⟨⟨n1, n2⟩, n3⟩ := hn
      simp [n1, n2, n3, doorbellTags]

/-! ## Order of arrival -/

theorem perm_three {a b c : Int} {p : List Int} (hab : a ≠ b) (hac : a ≠ c) (hbc : b ≠ c)
    (hp : p.Perm [a, b, c]) :
    p = [a, b, c] ∨ p = [a, c, b] ∨ p = [b, a, c] ∨ p = [b, c, a] ∨ p = [c, a, b] ∨
      p = [c, b, a] := by
  have hlen := hp.length_eq
  match p, hp, hlen with
  | [x, y, z], hp, _ =>
    have hx : x ∈ [a, b, c] := hp.subset (by simp)
    have hy : y ∈ [a, b, c] := hp.subset (by simp)
    have hz : z ∈ [a, b, c] := hp.subset (by simp)
    have hnd : [x, y, z].Nodup := hp.nodup_iff.mpr (by simp [hab, hac, hbc])
    simp only [List.mem_cons, List.mem_singleton, List.not_mem_nil, or_false] at hx hy hz
    simp only [List.nodup_cons, List.mem_cons, List.mem_singleton, List.not_mem_nil, or_false,
      not_or, not_false_eq_true, List.nodup_nil, and_true] at hnd
    simp only [List.cons.injEq, and_true]
    obtain ⟨n1, n2⟩ := hnd
    rcases hx with rfl | rfl | rfl <;> rcases hy with rfl | rfl | rfl <;>
      rcases hz with rfl | rfl | rfl <;> simp_all

theorem collect_done (T : Tags) (w : Bool) (i : Nat) (bell : List Int) (st : State) (f : Feeds)
    (h : needsMore st i = false) : collect T w i bell st f = ([], .ok (st, f, bell)) := by
  cases bell <;> simp [collect, h]

theorem collect_three (T : Tags) (hT : T.distinct) (w : Bool) (i : Nat) (st : State)
    (f : Feeds) (rest p : List Int)
    (hp : p.Perm [T.MEM_DATA_ID, T.CPU_DATA_ID, T.USER_DATA_ID]) :
    (collect T w i (p ++ rest) (resetCycle st i) f).2 = collectedOnce i st f rest := by
  obtain ⟨d1, d2, d3⟩ := hT
  have e1 : T.CPU_DATA_ID ≠ T.MEM_DATA_ID := fun h => d1 h.symm
  have e2 : T.USER_DATA_ID ≠ T.MEM_DATA_ID := fun h => d2 h.symm
  have e3 : T.USER_DATA_ID ≠ T.CPU_DATA_ID := fun h => d3 h.symm
  obtain ⟨fm, fc, fu⟩ := f
  rcases perm_three d1 d2 d3 hp with rfl | rfl | rfl | rfl | rfl | rfl <;>
    cases fm <;> cases fc <;> cases fu <;>
    simp [collect, dispatch, needsMore, resetCycle, collectedOnce, setAt_same, setAt_setAt,
      d1, d2, d3, e1, e2, e3, collect_done]

/-! ## The claims -/

/-- C1: with workers spawned, at every cycle `i > 0` the memory sample written on the
memory command channel is the one stored from the memory result of cycle `i - 1`, and
the CPU sample written on the CPU command channel is the one stored from the CPU result
of cycle `i - 1`. -/
theorem C1_prior_sample (T : Tags) (env : Env) (i : Nat) (c cp : Cycle)
    (hsp : env.spawns = true) (hi : 0 < i)
    (hc : (main T env).cycles[i]? = some c) (hp : (main T env).cycles[i - 1]? = some cp) :
    i < env.numSamples ∧
    ∃ sp m r, cp.after = some sp ∧
      lastMem cp.collected = some m ∧ sp.memorySamples (i - 1) = some m.sample ∧
      lastCpu cp.collected = some r ∧ sp.cpuData (i - 1) = some r.sample ∧
      c.sent =
        [.write .MEM_FDS (.tag T.MEM_START_FLAG), .write .MEM_FDS (.index i),
         .write .MEM_FDS (.memSample (some m.sample)),
         .write .CPU_FDS (.tag T.CPU_START_FLAG), .write .CPU_FDS (.index i),
         .write .CPU_FDS (.percent 0), .write .CPU_FDS (.cpuSample (some r.sample)),
         .write .USER_FDS (.tag T.USER_START_FLAG), .printf "Passed data\n" []] := by
  constructor
  · have h1 := main_length_le T env
    have h2 := (List.getElem?_eq_some_iff.mp hc).1
    omega
  · obtain ⟨q, rfl⟩ : ∃ q, i = q + 1 := ⟨i - 1, by omega⟩
    obtain ⟨st0, h0, _, h2⟩ := main_get T env (q + 1) c hc
    obtain ⟨cq, g1, g2⟩ := h2 q rfl
    simp only [Nat.add_sub_cancel] at hp ⊢
    rw [hp] at g1
    cases g1
    obtain ⟨i1, _, _, ⟨m, r, b1, b2, b3, b4⟩⟩ := main_after T env q cp st0 hp g2
    refine ⟨st0, m, r, g2, b1, b3, b2, b4, ?_⟩
    rw [h0.sent]
    simp [sendCommands, hsp, resetCycle, b3, b4, i1]

/-- The run `envThree` at cycle 2, with cycle 1 before it. -/
theorem C1_prior_sample_witness :
    ∃ c cp, (main tags0 envThree).cycles[2]? = some c ∧
      (main tags0 envThree).cycles[1]? = some cp ∧
      ∃ sp m r, cp.after = some sp ∧
        lastMem cp.collected = some m ∧ sp.memorySamples 1 = some m.sample ∧
        lastCpu cp.collected = some r ∧ sp.cpuData 1 = some r.sample ∧
        c.sent =
          [.write .MEM_FDS (.tag 1), .write .MEM_FDS (.index 2),
           .write .MEM_FDS (.memSample (some m.sample)),
           .write .CPU_FDS (.tag 2), .write .CPU_FDS (.index 2),
           .write .CPU_FDS (.percent 0), .write .CPU_FDS (.cpuSample (some r.sample)),
           .write .USER_FDS (.tag 3), .printf "Passed data\n" []] :=
  ⟨_, _, rfl, rfl,
    (C1_prior_sample tags0 envThree 2 _ _ (by decide) (by decide) rfl rfl).2⟩

/-- C2 (as stated) fails: after an unknown tag, or when one worker rings twice, the
notification pipe is read 4 times between the commands and the frame of the cycle. -/
theorem C2_counterexample :
    ((main tags0 envUnknownTag).outcome = .returned 0 ∧
      (main tags0 envUnknownTag).cycles.map (fun c => doorbellReads c.collected) = [4]) ∧
    ((main tags0 envRingsTwice).outcome = .returned 0 ∧
      (main tags0 envRingsTwice).cycles.map (fun c => doorbellReads c.collected) = [4]) := by
  decide

/-- C2 (as amended): in every cycle whose frame is rendered the notification pipe is read
until each of the three result tags has been read, and no further: at least 3 times, and
exactly 3 times precisely when the tags read are the three result tags once each. -/
theorem C2_doorbell_reads (T : Tags) (env : Env) (k : Nat) (c : Cycle) (hT : T.distinct)
    (hc : (main T env).cycles[k]? = some c) (hs : c.after.isSome = true) :
    3 ≤ doorbellReads c.collected ∧
    T.MEM_DATA_ID ∈ doorbellTags c.collected ∧
    T.CPU_DATA_ID ∈ doorbellTags c.collected ∧
    T.USER_DATA_ID ∈ doorbellTags c.collected ∧
    (T.MEM_DATA_ID ∉ (doorbellTags c.collected).dropLast ∨
      T.CPU_DATA_ID ∉ (doorbellTags c.collected).dropLast ∨
      T.USER_DATA_ID ∉ (doorbellTags c.collected).dropLast) ∧
    (doorbellReads c.collected = 3 ↔
      (doorbellTags c.collected).Perm [T.MEM_DATA_ID, T.CPU_DATA_ID, T.USER_DATA_ID]) := by
  obtain ⟨st0, h0, _, _⟩ := main_get T env k c hc
  obtain ⟨s, hs1⟩ := Option.isSome_iff_exists.mp hs
  obtain ⟨bell, f, f1, rest, hcol⟩ := h0.source s hs1
  obtain ⟨a1, a2, a3, a4⟩ := collect_tags T hT env.spawns k bell _ f _ s f1 rest hcol
  have m1 := a1 (by simp [resetCycle, setAt])
  have m2 := a2 (by simp [resetCycle, setAt])
  have m3 := a3 (by simp [resetCycle])
  have hsub : [T.MEM_DATA_ID, T.CPU_DATA_ID, T.USER_DATA_ID] ⊆ doorbellTags c.collected := by
    intro x hx
    simp only [List.mem_cons, List.mem_singleton, List.not_mem_nil, or_false] at hx
    rcases hx with rfl | rfl | rfl
    · exact m1
    · exact m2
    · exact m3
  have hnd : [T.MEM_DATA_ID, T.CPU_DATA_ID, T.USER_DATA_ID].Nodup := by
    obtain ⟨d1, d2, d3⟩ := hT
    simp [d1, d2, d3]
  have hsp := List.subperm_of_subset hnd hsub
  have hlen : 3 ≤ doorbellReads c.collected := hsp.length_le
  refine ⟨hlen, m1, m2, m3, ?_, ?_⟩
  · have hne : doorbellTags c.collected ≠ [] := List.ne_nil_of_mem m1
    rcases a4 hne with ⟨_, g⟩ | ⟨_, g⟩ | ⟨_, g⟩
    · exact Or.inl g
    · exact Or.inr (Or.inl g)
    · exact Or.inr (Or.inr g)
  · constructor
    · intro h3
      exact (hsp.perm_of_length_le (by
        unfold doorbellReads at h3
        rw [h3]
        simp)).symm
    · intro hp
      unfold doorbellReads
      rw [hp.length_eq]
      rfl

/-- The run `envThree` at cycle 1, where the tags arrive as 6, 4, 5. -/
theorem C2_doorbell_reads_witness :
    ∃ c, (main tags0 envThree).cycles[1]? = some c ∧
      3 ≤ doorbellReads c.collected ∧
      (4 : Int) ∈ doorbellTags c.collected ∧
      (5 : Int) ∈ doorbellTags c.collected ∧
      (6 : Int) ∈ doorbellTags c.collected ∧
      ((4 : Int) ∉ (doorbellTags c.collected).dropLast ∨
        (5 : Int) ∉ (doorbellTags c.collected).dropLast ∨
        (6 : Int) ∉ (doorbellTags c.collected).dropLast) ∧
      (doorbellReads c.collected = 3 ↔ (doorbellTags c.collected).Perm [4, 5, 6]) :=
  ⟨_, rfl, C2_doorbell_reads tags0 envThree 1 _ (by decide) rfl rfl⟩

/-- C3: the collection loop of a cycle ends in the same state whichever of the 6 orders
the three (pairwise different) result tags arrive in; with a result waiting on every
result pipe that state holds the three results. -/
theorem C3_order_independent (T : Tags) (w : Bool) (i : Nat) (st : State) (f : Feeds)
    (rest p : List Int) (hT : T.distinct)
    (hp : p.Perm [T.MEM_DATA_ID, T.CPU_DATA_ID, T.USER_DATA_ID]) :
    (collect T w i (p ++ rest) (resetCycle st i) f).2 =
      (collect T w i ([T.MEM_DATA_ID, T.CPU_DATA_ID, T.USER_DATA_ID] ++ rest)
        (resetCycle st i) f).2 ∧
    ∀ m ms r rs u us, f = ⟨m :: ms, r :: rs, u :: us⟩ →
      (collect T w i (p ++ rest) (resetCycle st i) f).2 =
        .ok ({ cpuData := setAt st.cpuData i (some r.sample)
               cpuHistory := st.cpuHistory
               memorySamples := setAt st.memorySamples i (some m.sample)
               memoryOutput := setAt st.memoryOutput i (some m.text)
               cpuOutput := setAt st.cpuOutput i (some r.text)
               userInfo := some u
               processorCount := r.processorCount
               coreCount := r.coreCount
               averageCpuUsage := some r.average }, ⟨ms, rs, us⟩, rest) := by
  constructor
  · rw [collect_three T hT w i st f rest p hp,
      collect_three T hT w i st f rest _ (List.Perm.refl _)]
  · intro m ms r rs u us hf
    rw [collect_three T hT w i st f rest p hp, hf]
    rfl

/-- The order 6, 4, 5 against the order 4, 5, 6 at cycle 1 of `envThree`. -/
theorem C3_order_independent_witness :
    (collect tags0 true 1 ([6, 4, 5] ++ [6, 4, 5]) (resetCycle (initState envThree) 1)
        envThree.feeds).2 =
      (collect tags0 true 1 ([4, 5, 6] ++ [6, 4, 5]) (resetCycle (initState envThree) 1)
        envThree.feeds).2 :=
  (C3_order_independent tags0 true 1 (initState envThree) envThree.feeds [6, 4, 5] [6, 4, 5]
    (by decide) (by decide)).1

/-- C4: in a run with workers spawned that completes its `numSamples >= 1` cycles and in
which `printSystemInfo` succeeds (the run returns 0), the tags written on each command
channel are exactly `numSamples` start tags of that worker followed by one sentinel `-1`. -/
theorem C4_command_tags (T : Tags) (env : Env) (ch : Chan) (_hN : 1 ≤ env.numSamples)
    (hsp : env.spawns = true) (hret : (main T env).outcome = .returned 0) :
    cmdTags ch (main T env).trace = List.replicate env.numSamples (T.start ch) ++ [-1] := by
  obtain ⟨h1, h2, h3, h4⟩ := main_returned_zero T env hret
  have hc := (flatMap_census ch (T.start ch) (if env.showUser || !env.showSystem then 6 else 5)
    (main T env).cycles
    (fun c hc => (mem_cycles_census T env c hc (h3 c hc) ch).1 hsp)
    (fun c hc => (mem_cycles_census T env c hc (h3 c hc) ch).2)).1
  unfold Run.trace
  rw [cmdTags_append, cmdTags_append, h1, h4, hc, h2, (startup_census env ch).1,
    (finish_census env ch).1]
  rfl

/-- The CPU command channel of the run `envThree`. -/
theorem C4_command_tags_witness :
    cmdTags .CPU_FDS (main tags0 envThree).trace = [2, 2, 2, -1] :=
  C4_command_tags tags0 envThree .CPU_FDS (by decide) (by decide) (by decide)

/-- C5 fails on the path where `printSystemInfo` reports failure: with the workers
spawned, `main` returns 1 having written no sentinel and called `wait` not once. -/
theorem C5_early_return :
    envSysInfoFails.spawns = true ∧ forks (main tags0 envSysInfoFails).trace = 3 ∧
      (main tags0 envSysInfoFails).outcome = .returned 1 ∧
      cmdTags .MEM_FDS (main tags0 envSysInfoFails).trace = [1] ∧
      cmdTags .CPU_FDS (main tags0 envSysInfoFails).trace = [2] ∧
      cmdTags .USER_FDS (main tags0 envSysInfoFails).trace = [3] ∧
      waits (main tags0 envSysInfoFails).trace = 0 := by
  decide

/-- C6 fails in user-only mode: after parsing and the baseline have succeeded, `main`
creates the notification pipe only, forks no worker, and its first cycle never ends. -/
theorem C6_user_only_forks_nothing :
    envUserOnly.parseRc = 0 ∧ envUserOnly.recordRc = 0 ∧
      forks (main tags0 envUserOnly).trace = 0 ∧
      (main tags0 envUserOnly).startup =
        [.parseArguments, .printf "\x1b[2J\x1b[3J" [], .printf "\x1b[2J\x1b[H\n" [],
         .recordCpuStats, .sleep 0, .pipe .incomingDataPipe,
         .close .incomingDataPipe .FD_WRITE] ∧
      (main tags0 envUserOnly).outcome = .stuck .spins ∧
      forks (main tags0 envOne).trace = 3 := by
  decide

/-- C7 (as amended): a run that returns 0 executes the cycle body exactly `numSamples`
times and calls `printDivider` five times per cycle, six when the sessions section is
shown, and twice after the loop. -/
theorem C7_dividers (T : Tags) (env : Env) (hret : (main T env).outcome = .returned 0) :
    (main T env).cycles.length = env.numSamples ∧
      dividers (main T env).trace =
        (if env.showUser || !env.showSystem then 6 else 5) * env.numSamples + 2 := by
  obtain ⟨h1, h2, h3, h4⟩ := main_returned_zero T env hret
  have hc := flatMap_dividers (if env.showUser || !env.showSystem then 6 else 5)
    (main T env).cycles
    (fun c hc => (mem_cycles_census T env c hc (h3 c hc) .MEM_FDS).2)
  refine ⟨h2, ?_⟩
  unfold Run.trace
  rw [dividers_append, dividers_append, h1, h4, hc, h2, (startup_census env .MEM_FDS).2,
    (finish_census env .MEM_FDS).2]
  omega

/-- The run `envThree`: three cycles with the sessions section, 6 * 3 + 2 dividers. -/
theorem C7_dividers_witness :
    (main tags0 envThree).cycles.length = 3 ∧ dividers (main tags0 envThree).trace = 20 :=
  C7_dividers tags0 envThree (by decide)

/-- C7 (as stated) fails: a complete run of one cycle calls `printDivider` 8 times,
not 2. -/
theorem C7_counterexample :
    (main tags0 envOne).outcome = .returned 0 ∧ (main tags0 envOne).cycles.length = 1 ∧
      dividers (main tags0 envOne).trace = 8 ∧
      dividers (main tags0 envOne).trace ≠ envOne.numSamples + 1 := by
  decide

/-- C8: the frame rendered at cycle `k` shows sample number `k + 1`; its memory section is
the memory blobs received at cycles `0..k` in index order followed by `numSamples - 1 - k`
empty lines, and its CPU section is the CPU blobs of cycles `0..k` in index order followed
by `numSamples - 1 - k` empty lines. -/
theorem C8_frame (T : Tags) (env : Env) (k : Nat) (c : Cycle) (s : State)
    (hc : (main T env).cycles[k]? = some c) (hs : c.after = some s) :
    k < env.numSamples ∧
    Event.printf "\n||| Sample #%d |||\n" [.int (k + 1)] ∈ frameHead env k ∧
    ∃ mblobs cblobs : List String,
      mblobs.length = k + 1 ∧ cblobs.length = k + 1 ∧
      (∀ j, j ≤ k → ∃ cj m r, (main T env).cycles[j]? = some cj ∧
        lastMem cj.collected = some m ∧ mblobs[j]? = some m.text ∧
        lastCpu cj.collected = some r ∧ cblobs[j]? = some r.text) ∧
      c.rendered =
        frameHead env k ++ [memoryHeader env] ++
        (mblobs.map fun b => Event.printf "%s" [.str (some b)]) ++
        List.replicate (env.numSamples - 1 - k) (Event.printf "\n" []) ++
        [.printDivider] ++ frameMiddle env s ++ [cpuHeader env] ++
        (cblobs.map fun b => Event.printf "%s" [.str (some b)]) ++
        List.replicate (env.numSamples - 1 - k) (Event.printf "\n" []) ++
        [.printDivider] ++ frameTail env k := by
  have hk : k < env.numSamples := by
    have h1 := main_length_le T env
    have h2 := (List.getElem?_eq_some_iff.mp hc).1
    omega
  obtain ⟨st0, h0, _, _⟩ := main_get T env k c hc
  obtain ⟨_, _, _, hr⟩ := h0.after s hs
  obtain ⟨_, i2, i3, _⟩ := main_after T env k c s hc hs
  refine ⟨hk, ?_, (List.range (k + 1)).map (fun j => (s.memoryOutput j).getD ""),
    (List.range (k + 1)).map (fun j => (s.cpuOutput j).getD ""), by simp, by simp, ?_, ?_⟩
  · unfold frameHead
    simp
  · intro j hj
    obtain ⟨cj, m, r, f1, f2, f3, f4, f5⟩ := i3 j hj
    refine ⟨cj, m, r, f1, f2, ?_, f3, ?_⟩
    · simp [List.getElem?_map, List.getElem?_range (show j < k + 1 by omega), f4]
    · simp [List.getElem?_map, List.getElem?_range (show j < k + 1 by omega), f5]
  · have hm := lines_split env.numSamples k hk s.memoryOutput
      (fun j hj => by obtain ⟨_, m, _, _, _, _, f4, _⟩ := i3 j hj; simp [f4])
      (fun j hj => (i2 j hj).1)
    have hcpu := lines_split env.numSamples k hk s.cpuOutput
      (fun j hj => by obtain ⟨_, _, r, _, _, _, _, f5⟩ := i3 j hj; simp [f5])
      (fun j hj => (i2 j hj).2)
    rw [hr, render, memoryLines_eq, cpuLines_eq, hm, hcpu]
    simp only [List.append_assoc]

/-- The frame of cycle 1 of the run `envThree`. -/
theorem C8_frame_witness :
    ∃ c s, (main tags0 envThree).cycles[1]? = some c ∧ c.after = some s ∧
      1 < envThree.numSamples ∧
      Event.printf "\n||| Sample #%d |||\n" [.int (1 + 1)] ∈ frameHead envThree 1 ∧
      ∃ mblobs cblobs : List String,
        mblobs.length = 1 + 1 ∧ cblobs.length = 1 + 1 ∧
        (∀ j, j ≤ 1 → ∃ cj m r, (main tags0 envThree).cycles[j]? = some cj ∧
          lastMem cj.collected = some m ∧ mblobs[j]? = some m.text ∧
          lastCpu cj.collected = some r ∧ cblobs[j]? = some r.text) ∧
        c.rendered =
          frameHead envThree 1 ++ [memoryHeader envThree] ++
          (mblobs.map fun b => Event.printf "%s" [.str (some b)]) ++
          List.replicate (envThree.numSamples - 1 - 1) (Event.printf "\n" []) ++
          [.printDivider] ++ frameMiddle envThree s ++ [cpuHeader envThree] ++
          (cblobs.map fun b => Event.printf "%s" [.str (some b)]) ++
          List.replicate (envThree.numSamples - 1 - 1) (Event.printf "\n" []) ++
          [.printDivider] ++ frameTail envThree 1 :=
  ⟨_, _, rfl, rfl, C8_frame tags0 envThree 1 _ _ rfl rfl⟩

/-- C9: when `parseArguments` fails, or when `recordCpuStats` fails on the baseline,
`main` returns 1 having created no pipe, forked no worker, slept not at all and written
to no channel; when both and `printSystemInfo` succeed and every cycle completes, `main`
returns 0. -/
theorem C9_fail_fast (T : Tags) (env : Env) :
    (env.parseRc ≠ 0 →
      (main T env).outcome = .returned 1 ∧
        ∀ e ∈ (main T env).trace, e.touchesWorkers = false) ∧
    (env.parseRc = 0 → env.recordRc ≠ 0 →
      (main T env).outcome = .returned 1 ∧
        ∀ e ∈ (main T env).trace, e.touchesWorkers = false) ∧
    (env.parseRc = 0 → env.recordRc = 0 → env.sysInfoRc = 0 →
      (∀ c ∈ (main T env).cycles, c.after.isSome = true) →
      (main T env).outcome = .returned 0) := by
  refine ⟨?_, ?_, ?_⟩
  · intro h
    simp [main, h, Run.trace, Event.touchesWorkers]
  · intro h1 h2
    simp [main, h1, h2, Run.trace, Event.touchesWorkers]
  · intro h1 h2 h3 hall
    have hc := (main_cycles T env h1 h2).2
    cases hr : (cycles T env env.numSamples 0 (initState env) env.feeds
        (if env.spawns then env.doorbell else [])).2 with
    | error e =>
      obtain ⟨c, g1, g2⟩ := cycles_error T env _ _ _ _ _ e hr
      rw [← hc] at g1
      have := hall c g1
      rw [g2] at this
      cases this
    | ok x =>
      unfold main
      simp [h1, h2, h3, hr]

/-- An invalid command line, an unreadable baseline, and the complete run `envThree`. -/
theorem C9_fail_fast_witness :
    ((main tags0 envBadArgs).outcome = .returned 1 ∧
      ∀ e ∈ (main tags0 envBadArgs).trace, e.touchesWorkers = false) ∧
    ((main tags0 envNoBaseline).outcome = .returned 1 ∧
      ∀ e ∈ (main tags0 envNoBaseline).trace, e.touchesWorkers = false) ∧
    (main tags0 envThree).outcome = .returned 0 :=
  ⟨(C9_fail_fast tags0 envBadArgs).1 (by decide),
   (C9_fail_fast tags0 envNoBaseline).2.1 (by decide) (by decide),
   (C9_fail_fast tags0 envThree).2.2 (by decide) (by decide) (by decide) (by decide)⟩

/-- C10 (as amended): the baseline is stored in `cpuData[0]`, but the command written
for cycle 0 is the start tag and the index only; no CPU sample is written on the CPU
command channel at cycle 0. -/
theorem C10_cycle_zero_command (T : Tags) (env : Env) (c : Cycle) (hsp : env.spawns = true)
    (hc : (main T env).cycles[0]? = some c) :
    (initState env).cpuData 0 = some env.baseline ∧
    c.sent =
      [.write .MEM_FDS (.tag T.MEM_START_FLAG), .write .MEM_FDS (.index 0),
       .write .CPU_FDS (.tag T.CPU_START_FLAG), .write .CPU_FDS (.index 0),
       .write .USER_FDS (.tag T.USER_START_FLAG), .printf "Passed data\n" []] ∧
    ∀ s, Event.write .CPU_FDS (.cpuSample s) ∉ c.sent := by
  obtain ⟨st0, h0, _, _⟩ := main_get T env 0 c hc
  have hs : c.sent =
      [.write .MEM_FDS (.tag T.MEM_START_FLAG), .write .MEM_FDS (.index 0),
       .write .CPU_FDS (.tag T.CPU_START_FLAG), .write .CPU_FDS (.index 0),
       .write .USER_FDS (.tag T.USER_START_FLAG), .printf "Passed data\n" []] := by
    rw [h0.sent]
    simp [sendCommands, hsp]
  refine ⟨by simp [initState, setAt], hs, ?_⟩
  intro s
  rw [hs]
  simp

/-- Cycle 0 of the run `envThree`. -/
theorem C10_cycle_zero_command_witness :
    ∃ c, (main tags0 envThree).cycles[0]? = some c ∧
      (initState envThree).cpuData 0 = some envThree.baseline ∧
      c.sent =
        [.write .MEM_FDS (.tag 1), .write .MEM_FDS (.index 0), .write .CPU_FDS (.tag 2),
         .write .CPU_FDS (.index 0), .write .USER_FDS (.tag 3), .printf "Passed data\n" []] ∧
      ∀ s, Event.write .CPU_FDS (.cpuSample s) ∉ c.sent :=
  ⟨_, rfl, C10_cycle_zero_command tags0 envThree _ (by decide) rfl⟩

/-- C10 (as stated) fails: in a complete run the baseline sample is written on no
channel at all, in particular not at cycle 0. -/
theorem C10_counterexample :
    (main tags0 envOne).outcome = .returned 0 ∧ envOne.spawns = true ∧
      Event.write .CPU_FDS (.cpuSample (some envOne.baseline)) ∉ (main tags0 envOne).trace := by
  decide

end SystemMonitor
